import Mathlib

/-!
Verification of the MGNREGA dashboard backend (`src/backend/server.js`) and the
comparison-set logic of the frontend (`src/frontend/src/App.tsx`).

Numbers flowing through the backend's arithmetic are JavaScript numbers; we
embed them as exact rationals (`ℚ`), with the division-by-zero cases of
JavaScript (`Infinity`, `-Infinity`, `NaN`) handled explicitly where the
source expression can produce them.  Database fields that can be `null` are
embedded as `Option ℚ`; JavaScript arithmetic coerces `null` to `0`.
-/

namespace Mgnrega

/-- JavaScript numeric coercion of a possibly-`null` field: `null` behaves as
`0` in `-`, `/` and in `parseFloat(x || 0)`. -/
def toNum : Option ℚ → ℚ
  | none => 0
  | some q => q

/-- `Number.prototype.toFixed(1)` for a nonnegative finite value: the integer
`n` minimizing `|n/10 - x|`, ties resolved toward the larger `n` (ECMAScript
Number.prototype.toFixed, step "If there are two such n, pick the larger n"),
rendered as `"<n/10>.<n%10>"`. -/
def toFixed1Nonneg (x : ℚ) : String :=
  let n : ℤ := ⌊10 * x + 1/2⌋
  toString (n / 10) ++ "." ++ toString (n % 10)

/-- `Number.prototype.toFixed(1)` on a finite value: a negative argument is
formatted by formatting its magnitude and prepending `"-"` (ECMAScript). -/
def toFixed1 (x : ℚ) : String :=
  if x < 0 then "-" ++ toFixed1Nonneg (-x) else toFixed1Nonneg x

/-- The numeric value of `parseFloat(x.toFixed(1))`: the one-decimal string
read back as a number.  `toFixed(1)` prints `n/10` exactly, so this is the
rational `n/10` with the sign of `x`. -/
def round1 (x : ℚ) : ℚ :=
  if x < 0 then -((⌊10 * (-x) + 1/2⌋ : ℤ) : ℚ) / 10 else ((⌊10 * x + 1/2⌋ : ℤ) : ℚ) / 10

/-! ### IEEE-754 binary64 rounding

JavaScript numbers are binary64 doubles: every arithmetic operation rounds
its exact result to 53 significant bits, to nearest with ties to even.  A
finite double is an exact rational, so we model a double by its rational
value and each operation by exact arithmetic followed by `roundDouble`.
Overflow to infinity (beyond ~1.8e308) and the reduced precision of
subnormals (below ~2.2e-308) are outside the magnitudes this program
handles and are not modelled. -/

/-- Scale the positive fraction `p / q` by powers of two (recording the
exponent `u`) until it lies in `[2^52, 2^53)`, the scaled-significand range of
binary64.  Works on the integer numerator and denominator so that concrete
runs evaluate in the kernel; the fuel bound 2400 covers every rational whose
binade is within (or far beyond) the binary64 exponent range. -/
def scaleLoop : Nat → Nat → Nat → Int → (Nat × Nat × Int)
  | 0, p, q, u => (p, q, u)
  | fuel + 1, p, q, u =>
    if p < 4503599627370496 * q then scaleLoop fuel (2 * p) q (u - 1)
    else if 9007199254740992 * q ≤ p then scaleLoop fuel p (2 * q) (u + 1)
    else (p, q, u)

/-- Round a rational to the nearest binary64 double (ties to even), returning
its exact rational value: scale `|x|` into `[2^52, 2^53)`, round the scaled
significand to an integer `m` (ties to the even neighbour), and reapply the
exponent and sign. -/
def roundDouble (x : ℚ) : ℚ :=
  if x = 0 then 0
  else
    let r := scaleLoop 2400 x.num.natAbs x.den 0
    let p := r.1
    let q := r.2.1
    let u := r.2.2
    let fl := p / q
    let rem := p % q
    let m : Nat := if 2 * rem < q then fl else if q < 2 * rem then fl + 1
                   else if fl % 2 = 0 then fl else fl + 1
    let mag : ℚ := if 0 ≤ u then (m : ℚ) * ((2 ^ u.toNat : ℕ) : ℚ)
                   else (m : ℚ) / ((2 ^ (-u).toNat : ℕ) : ℚ)
    if x < 0 then -mag else mag

/-- JavaScript `x + y` on doubles. -/
def flAdd (x y : ℚ) : ℚ := roundDouble (x + y)

/-- JavaScript `x - y` on doubles. -/
def flSub (x y : ℚ) : ℚ := roundDouble (x - y)

/-- JavaScript `x / y` on doubles (for `y ≠ 0`). -/
def flDiv (x y : ℚ) : ℚ := roundDouble (x / y)

/-- JavaScript `x * y` on doubles. -/
def flMul (x y : ℚ) : ℚ := roundDouble (x * y)

/-- One metric's trend string, embedding the JavaScript expression
`(((current.m - previous.m) / previous.m) * 100).toFixed(1)` from
`server.js` lines 183-192.  The record fields carry the exact decimal values
the store serves; the program holds their binary64 images (JSON parsing
rounds each decimal to the nearest double), so both operands pass through
`roundDouble` and every arithmetic operation rounds its result as binary64
does.  When the coerced previous value is `0`, JavaScript division yields
`Infinity`, `-Infinity` or `NaN` (never a guard to `"0"`); `toFixed` renders
those as their `toString` forms.  The zero/sign tests are on the exact
values: a decimal is zero iff its double is zero, and rounding preserves
sign, so they coincide with the program's tests on the doubles. -/
def trendString (c p : Option ℚ) : String :=
  let cn := toNum c
  let pn := toNum p
  if pn = 0 then
    if cn - pn > 0 then "Infinity"
    else if cn - pn < 0 then "-Infinity"
    else "NaN"
  else
    toFixed1 (flMul (flDiv (flSub (roundDouble cn) (roundDouble pn)) (roundDouble pn)) 100)

/-- One monthly row of the `districts` table, as selected by `select('*')` in
the `/api/performance/:districtCode` handler. -/
structure DistrictRecord where
  district_code : String
  district_name : String
  state_code : String
  state_name : String
  total_households : Option ℚ
  avg_days_per_household : Option ℚ
  total_expenditure : Option ℚ
  works_completed : Option ℚ
  month : String
  updated_at : String
deriving DecidableEq, Repr

/-- The four trend strings of the `/api/performance` payload. -/
structure Trends where
  households : String
  days : String
  expenditure : String
  works : String
deriving DecidableEq, Repr

/-- The `trends` object of `server.js` lines 183-192: each field is
`previous ? (((current.m - previous.m) / previous.m) * 100).toFixed(1) : '0'`. -/
def computeTrends (current : DistrictRecord) (previous : Option DistrictRecord) : Trends :=
  match previous with
  | none => ⟨"0", "0", "0", "0"⟩
  | some prev =>
    ⟨trendString current.total_households prev.total_households,
     trendString current.avg_days_per_household prev.avg_days_per_household,
     trendString current.total_expenditure prev.total_expenditure,
     trendString current.works_completed prev.works_completed⟩

/-! ### State average (`server.js` lines 168-197)

The peer query `select('avg_days_per_household').eq('state_code', ...).eq('month', ...)`
returns `stateData` — `none` models a failed query (Supabase sets `data` to
`null` and `error` non-null; the handler only logs `stateError` and goes on).
Each row's field may itself be `null`. -/

/-- `server.js` lines 178-180:
`stateData && stateData.length > 0 ? stateData.reduce((sum, d) => sum + parseFloat(d.avg_days_per_household || 0), 0) / stateData.length : 0`.
`parseFloat(d || 0)` yields the binary64 image of the field's decimal value
(null coercing to `0`); the running sum adds doubles, and the final division
divides doubles (`stateData.length` is an exactly representable integer). -/
def stateAverageRaw (stateData : Option (List (Option ℚ))) : ℚ :=
  match stateData with
  | none => 0
  | some l =>
    if l.length > 0 then
      flDiv (l.foldl (fun sum d => flAdd sum (roundDouble (toNum d))) 0) (l.length : ℚ)
    else 0

/-- The `stateAverage` field of the response, `server.js` line 197:
`parseFloat(stateAverage.toFixed(1))`, i.e. the one-decimal rounding of the
raw average read back as a number. -/
def stateAverageResp (stateData : Option (List (Option ℚ))) : ℚ :=
  round1 (stateAverageRaw stateData)

/-! ### The `/api/performance/:districtCode` handler (`server.js` lines 142-208) -/

/-- HTTP outcome of the performance endpoint. -/
inductive PerfResponse where
  /-- 200 with `{district, trends, stateAverage, lastUpdated}`. -/
  | success (district : DistrictRecord) (trends : Trends) (stateAverage : ℚ)
      (lastUpdated : String)
  /-- 404 with `{error}`. -/
  | notFound (error : String)
  /-- 500 with `{error, details}` (the catch block). -/
  | failure (error : String) (details : String)
deriving DecidableEq, Repr

/-- The HTTP status code of a `PerfResponse`. -/
def PerfResponse.status : PerfResponse → Nat
  | .success _ _ _ _ => 200
  | .notFound _ => 404
  | .failure _ _ => 500

/-- Whether the response carries an `error` field in its JSON body. -/
def PerfResponse.hasErrorField : PerfResponse → Bool
  | .success _ _ _ _ => false
  | .notFound _ => true
  | .failure _ _ => true

/-- The handler of `GET /api/performance/:districtCode`, `server.js` lines
142-208, as a function of the two store results it consumes: `latestTwo` is
the result of the `order('month', descending).limit(2)` query (`Except` error
models `currentError`, which is thrown and caught as a 500); `peerResult` is
the state-average query's `data` (`none` when that query failed — only
logged).  `current = currentData[0]`, `previous = currentData[1] || null`. -/
def performanceHandler (latestTwo : Except String (List DistrictRecord))
    (peerResult : Option (List (Option ℚ))) : PerfResponse :=
  match latestTwo with
  | .error e => .failure "Failed to fetch performance data" e
  | .ok [] => .notFound "District not found"
  | .ok (current :: rest) =>
    .success current (computeTrends current rest.head?) (stateAverageResp peerResult)
      current.updated_at

/-! ### The `/health` handler (`server.js` lines 211-233) -/

/-- The JSON body and status of a `/health` response.  `timestamp` is the
value of `new Date()` at response time, carried as an opaque clock reading. -/
structure HealthResponse where
  httpStatus : Nat
  status : String
  database : String
  recordCount : Option Nat
  timestamp : Option Nat
  error : Option String
deriving DecidableEq, Repr

/-- The handler of `GET /health`: on a successful store query (rows of `id`,
`limit(1)`, with `data` possibly `null`) it answers 200 with
`recordCount = data ? data.length : 0`; on a failed query it answers 503 with
`status: 'unhealthy'`. -/
def healthHandler (queryResult : Except String (Option (List Nat))) (now : Nat) :
    HealthResponse :=
  match queryResult with
  | .ok data =>
    { httpStatus := 200, status := "healthy", database := "connected",
      recordCount := some (match data with | some l => l.length | none => 0),
      timestamp := some now, error := none }
  | .error e =>
    { httpStatus := 503, status := "unhealthy", database := "disconnected",
      recordCount := none, timestamp := none, error := some e }

/-! ### The cache (`server.js` lines 53-66)

`getCachedData(key, fetchFn)` consults `cache.get(key)`; an entry is used
only when `Date.now() - cached.timestamp < CACHE_TTL`.  We model one key's
entry (`Option (CacheEntry α)`) and a lookup as a state transition returning
the data, the new entry and whether `fetchFn` was invoked.  Time is in
milliseconds.  Natural subtraction agrees with the JavaScript comparison:
when `now < timestamp` both `now - timestamp < CACHE_TTL` (negative in JS,
`0` here) hold. -/

/-- One cache entry: `cache.set(key, { data, timestamp: Date.now() })`. -/
structure CacheEntry (α : Type) where
  data : α
  timestamp : Nat
deriving DecidableEq, Repr

/-- `const CACHE_TTL = 15 * 60 * 1000` — 15 minutes in milliseconds. -/
def CACHE_TTL : Nat := 15 * 60 * 1000

/-- One call of `getCachedData` for a fixed key: returns
`(data returned, entry after the call, whether the store fetch ran)`.
`fetch` is the value `fetchFn` would produce. -/
def getCachedData (entry : Option (CacheEntry α)) (now : Nat) (fetch : α) :
    α × CacheEntry α × Bool :=
  match entry with
  | some cached =>
    if now - cached.timestamp < CACHE_TTL then (cached.data, cached, false)
    else (fetch, ⟨fetch, now⟩, true)
  | none => (fetch, ⟨fetch, now⟩, true)

/-! ### Deduplication in `/api/states` and `/api/districts/:stateCode`
(`server.js` lines 87-89 and 124-128)

`[...new Map(data.map(item => [item.key, item])).values()]`: a JavaScript
`Map` built from an entry list keeps each key at the position of its first
insertion, but a later entry with the same key overwrites the stored value.
`upsert` is one `Map.set`; the fold over the entry list is the `Map`
constructor; taking `Prod.snd` of every slot is `.values()`. -/

/-- `Map.prototype.set`: replace in place when the key is present, append
otherwise. -/
def upsert (m : List (String × α)) (k : String) (v : α) : List (String × α) :=
  match m with
  | [] => [(k, v)]
  | (k', v') :: rest => if k' = k then (k', v) :: rest else (k', v') :: upsert rest k v

/-- `[...new Map(pairs).values()]`. -/
def jsMapValues (pairs : List (String × α)) : List α :=
  (pairs.foldl (fun m kv => upsert m kv.1 kv.2) []).map Prod.snd

/-- A row of the `/api/states` query: `select('state_code, state_name')`. -/
structure StateRow where
  state_code : String
  state_name : String
deriving DecidableEq, Repr

/-- A row of the `/api/districts/:stateCode` query:
`select('district_code, district_name')`. -/
structure DistrictRow where
  district_code : String
  district_name : String
deriving DecidableEq, Repr

/-- `server.js` lines 87-89: `[...new Map(data.map(item => [item.state_code, item])).values()]`. -/
def uniqueStates (rows : List StateRow) : List StateRow :=
  jsMapValues (rows.map fun r => (r.state_code, r))

/-- `server.js` lines 124-128: `[...new Map(data.map(item => [item.district_code, item])).values()]`. -/
def uniqueDistricts (rows : List DistrictRow) : List DistrictRow :=
  jsMapValues (rows.map fun r => (r.district_code, r))

/-- The last element of a list satisfying `p`, if any (right-recursive so that
"later occurrences win" is immediate). -/
def lastWith (p : α → Bool) : List α → Option α
  | [] => none
  | r :: rest =>
    match lastWith p rest with
    | some v => some v
    | none => if p r then some r else none

/-! ### The frontend comparison set (`App.tsx` lines 734-746, identically
at lines 126-137) -/

/-- `addToCompare`: append only when the list has fewer than three entries
and does not already contain the code. -/
def addToCompare (compareDistricts : List String) (districtCode : String) : List String :=
  if compareDistricts.length < 3 ∧ districtCode ∉ compareDistricts then
    compareDistricts ++ [districtCode]
  else compareDistricts

/-- `removeFromCompare`: `compareDistricts.filter(d => d !== districtCode)`. -/
def removeFromCompare (compareDistricts : List String) (districtCode : String) : List String :=
  compareDistricts.filter (fun d => d ≠ districtCode)

/-! ## Claim theorems -/

/-- C4: for every district code for which the store returns zero records,
`GET /api/performance/:districtCode` responds with HTTP 404 and a body
containing an `error` field, and no performance payload is produced (the
response is exactly the `notFound` one). -/
theorem c4_not_found (peerResult : Option (List (Option ℚ))) :
    performanceHandler (.ok []) peerResult = .notFound "District not found" ∧
    (performanceHandler (.ok []) peerResult).status = 404 ∧
    (performanceHandler (.ok []) peerResult).hasErrorField = true :=
  ⟨rfl, rfl, rfl⟩

/-- C8: `GET /health` responds 200 with `status`, `database`, `recordCount`
and `timestamp` fields when the store query succeeds, and 503 with status
`"unhealthy"` when it fails. -/
theorem c8_health (rows : Option (List Nat)) (e : String) (now : Nat) :
    (healthHandler (.ok rows) now).httpStatus = 200 ∧
    (healthHandler (.ok rows) now).status = "healthy" ∧
    (healthHandler (.ok rows) now).database = "connected" ∧
    (healthHandler (.ok rows) now).recordCount.isSome = true ∧
    (healthHandler (.ok rows) now).timestamp = some now ∧
    (healthHandler (.error e) now).httpStatus = 503 ∧
    (healthHandler (.error e) now).status = "unhealthy" :=
  ⟨rfl, rfl, rfl, rfl, rfl, rfl, rfl⟩

/-- C9: if the peer-records (state-average) query fails while the latest-two
query succeeded, `GET /api/performance/:districtCode` still responds 200:
the error is only logged, `stateAverage` falls back to `0`, and no 500 is
produced. -/
theorem c9_peer_failure_still_200 (cur : DistrictRecord) (rest : List DistrictRecord) :
    performanceHandler (.ok (cur :: rest)) none
      = .success cur (computeTrends cur rest.head?) 0 cur.updated_at ∧
    (performanceHandler (.ok (cur :: rest)) none).status = 200 := by
  have h0 : stateAverageResp none = 0 := by
    norm_num [stateAverageResp, stateAverageRaw, round1]
  exact ⟨by simp [performanceHandler, h0], rfl⟩

/-- C7: the client-side comparison set never exceeds three district codes:
`addToCompare` is the identity when the list already has three entries or
already contains the code, `removeFromCompare` only removes entries, and
`length ≤ 3` is preserved by both operations. -/
theorem c7_compare_invariant (l : List String) (c : String) :
    (l.length = 3 → addToCompare l c = l) ∧
    (c ∈ l → addToCompare l c = l) ∧
    (l.length ≤ 3 → (addToCompare l c).length ≤ 3) ∧
    (removeFromCompare l c).length ≤ l.length ∧
    (l.length ≤ 3 → (removeFromCompare l c).length ≤ 3) := by
  refine ⟨?_, ?_, ?_, List.length_filter_le _ _, ?_⟩
  · intro h
    rw [addToCompare, if_neg]
    rintro ⟨h1, -⟩
    omega
  · intro h
    rw [addToCompare, if_neg]
    rintro ⟨-, h2⟩
    exact h2 h
  · intro h
    rw [addToCompare]
    split
    · next hc => simp only [List.length_append, List.length_cons, List.length_nil]; omega
    · exact h
  · intro h
    exact le_trans (List.length_filter_le _ _) h

/-- Witness for C7 at concrete inputs. -/
theorem c7_compare_invariant_witness :
    addToCompare ["a", "b", "c"] "d" = ["a", "b", "c"] ∧
    addToCompare ["a", "b"] "a" = ["a", "b"] ∧
    (addToCompare ["a", "b"] "d").length ≤ 3 ∧
    (removeFromCompare ["a", "b", "c"] "b").length ≤ 3 :=
  ⟨(c7_compare_invariant ["a", "b", "c"] "d").1 rfl,
   (c7_compare_invariant ["a", "b"] "a").2.1 (by decide),
   (c7_compare_invariant ["a", "b"] "d").2.2.1 (by decide),
   (c7_compare_invariant ["a", "b", "c"] "b").2.2.2.2 (by decide)⟩

/-- C5: for a cache key, two lookups whose timestamps differ by strictly less
than 15 minutes invoke the store fetch at most once, and when the first
lookup fetched, the second returns the cached payload; a lookup at or after
15 minutes since the entry's timestamp re-queries the store and overwrites
the entry with a fresh timestamp. -/
theorem c5_cache_ttl {α : Type} (e0 : Option (CacheEntry α)) (t1 t2 : Nat) (f1v f2v : α)
    (_h12 : t1 ≤ t2) (hlt : t2 - t1 < CACHE_TTL) :
    (¬(((getCachedData e0 t1 f1v).2.2 = true) ∧
       ((getCachedData (some (getCachedData e0 t1 f1v).2.1) t2 f2v).2.2 = true))) ∧
    ((getCachedData e0 t1 f1v).2.2 = true →
      (getCachedData (some (getCachedData e0 t1 f1v).2.1) t2 f2v).1
        = (getCachedData e0 t1 f1v).1) ∧
    (∀ (d : α) (ts t : Nat) (fv : α), CACHE_TTL ≤ t - ts →
      getCachedData (some ⟨d, ts⟩) t fv = (fv, ⟨fv, t⟩, true)) := by
  have expiry : ∀ (d : α) (ts t : Nat) (fv : α), CACHE_TTL ≤ t - ts →
      getCachedData (some (⟨d, ts⟩ : CacheEntry α)) t fv = (fv, ⟨fv, t⟩, true) := by
    intro d ts t fv h
    simp [getCachedData, Nat.not_lt.2 h]
  have hfresh : ∀ d, getCachedData (some (⟨d, t1⟩ : CacheEntry α)) t2 f2v = (d, ⟨d, t1⟩, false) := by
    intro d
    simp [getCachedData, hlt]
  cases e0 with
  | none =>
    refine ⟨?_, ?_, expiry⟩
    · simp [getCachedData, hlt]
    · intro _
      simp [getCachedData, hlt]
  | some c =>
    by_cases hc : t1 - c.timestamp < CACHE_TTL
    · refine ⟨?_, ?_, expiry⟩
      · simp [getCachedData, hc]
      · intro hfetch
        simp [getCachedData, hc] at hfetch
    · refine ⟨?_, ?_, expiry⟩
      · simp [getCachedData, hc, hlt]
      · intro _
        simp [getCachedData, hc, hlt]

/-- Witness for C5 at concrete inputs: empty cache, lookups at 0 ms and
1000 ms. -/
theorem c5_cache_ttl_witness :
    (0 ≤ 1000) ∧ (1000 - 0 < CACHE_TTL) ∧
    ¬(((getCachedData (none : Option (CacheEntry Nat)) 0 7).2.2 = true) ∧
      ((getCachedData (some (getCachedData (none : Option (CacheEntry Nat)) 0 7).2.1) 1000 8).2.2 = true)) :=
  ⟨by decide, by decide, (c5_cache_ttl none 0 1000 7 8 (by decide) (by decide)).1⟩

/-- C1 counterexample: with a previous record present whose
`total_households` is `0`, the code does divide by zero — JavaScript yields
`Infinity` and `toFixed` renders `"Infinity"`, not `"0"`.  The guard
`previous ? ... : '0'` only tests the record's presence, never the value. -/
theorem c1_zero_previous_counterexample :
    (computeTrends
        ⟨"D1", "Dist", "S1", "State", some 1200, some 40, some 100, some 10, "2025-09", "t2"⟩
        (some ⟨"D1", "Dist", "S1", "State", some 0, some 40, some 100, some 10, "2025-08", "t1"⟩)).households
      = "Infinity" ∧
    (computeTrends
        ⟨"D1", "Dist", "S1", "State", some 1200, some 40, some 100, some 10, "2025-09", "t2"⟩
        (some ⟨"D1", "Dist", "S1", "State", some 0, some 40, some 100, some 10, "2025-08", "t1"⟩)).households
      ≠ "0" := by
  constructor
  · show trendString (some 1200) (some 0) = "Infinity"
    rw [trendString]
    norm_num [toNum]
  · show trendString (some 1200) (some 0) ≠ "0"
    rw [trendString]
    norm_num [toNum]
    decide

/-- C1 amended: all four trends are `"0"` exactly when no previous record
exists.  When a previous record is present, each trend is computed
unconditionally from the coerced metric values; if the previous value is zero
or null (coerced to `0`), the division yields `"Infinity"`, `"-Infinity"` or
`"NaN"` according to the sign of the current value — never `"0"`. -/
theorem c1_amended_guard (c p : DistrictRecord) (cv pv : Option ℚ) :
    computeTrends c none = ⟨"0", "0", "0", "0"⟩ ∧
    computeTrends c (some p) =
      ⟨trendString c.total_households p.total_households,
       trendString c.avg_days_per_household p.avg_days_per_household,
       trendString c.total_expenditure p.total_expenditure,
       trendString c.works_completed p.works_completed⟩ ∧
    (toNum pv = 0 →
      trendString cv pv =
        (if 0 < toNum cv then "Infinity"
         else if toNum cv < 0 then "-Infinity" else "NaN") ∧
      trendString cv pv ≠ "0") := by
  refine ⟨rfl, rfl, fun h => ?_⟩
  have he : trendString cv pv =
      (if 0 < toNum cv then "Infinity"
       else if toNum cv < 0 then "-Infinity" else "NaN") := by
    rw [trendString]
    simp only [h, sub_zero, if_true, gt_iff_lt, eq_self_iff_true]
  refine ⟨he, ?_⟩
  rw [he]
  by_cases h1 : 0 < toNum cv
  · rw [if_pos h1]
    decide
  · rw [if_neg h1]
    by_cases h2 : toNum cv < 0
    · rw [if_pos h2]
      decide
    · rw [if_neg h2]
      decide

/-- Witness for C1 amended at concrete values: previous value `0`, current
value `5`. -/
theorem c1_amended_guard_witness :
    toNum (some (0 : ℚ)) = 0 ∧
    (trendString (some 5) (some 0) =
        (if 0 < toNum (some 5) then "Infinity"
         else if toNum (some 5) < 0 then "-Infinity" else "NaN") ∧
      trendString (some 5) (some 0) ≠ "0") :=
  ⟨rfl,
   (c1_amended_guard ⟨"", "", "", "", none, none, none, none, "", ""⟩
      ⟨"", "", "", "", none, none, none, none, "", ""⟩ (some 5) (some 0)).2.2 rfl⟩

/-! ### Concrete binary64 evaluations

Each lemma fixes one `roundDouble` run: the scaled-significand triple is
checked by the kernel (`decide` on `scaleLoop`) and the surrounding rational
algebra by `norm_num`.  The values are the steps of the spec's worked
examples (42.3 vs 40.0, 1200 vs 1000, and the two-peer average). -/

theorem rd_42_3 : roundDouble (423/10) = 2976597878715187/70368744177664 := by
  have hs : scaleLoop 2400 423 10 0 = (59531957574303744, 10, -47) := by decide
  have ht : Int.toNat 47 = 47 := rfl
  rw [roundDouble, if_neg (by norm_num)]
  norm_num [hs, ht]

theorem rd_40 : roundDouble (40 : ℚ) = 40 := by
  have hs : scaleLoop 2400 40 1 0 = (5629499534213120, 1, -47) := by decide
  have ht : Int.toNat 47 = 47 := rfl
  rw [roundDouble, if_neg (by norm_num)]
  norm_num [hs, ht]

theorem rd_diff : roundDouble (161848111608627/70368744177664)
    = 161848111608627/70368744177664 := by
  have hs : scaleLoop 2400 161848111608627 70368744177664 0
      = (364449547565615502570339434496, 70368744177664, -51) := by decide
  have ht : Int.toNat 51 = 51 := rfl
  rw [roundDouble, if_neg (by norm_num)]
  norm_num [hs, ht]

theorem rd_quot : roundDouble (161848111608627/2814749767106560)
    = 4143311657180851/72057594037927936 := by
  have hs : scaleLoop 2400 161848111608627 2814749767106560 0
      = (23324771044199392164501723807744, 2814749767106560, -57) := by decide
  have ht : Int.toNat 57 = 57 := rfl
  rw [roundDouble, if_neg (by norm_num)]
  norm_num [hs, ht]

theorem rd_prod : roundDouble (103582791429521275/18014398509481984)
    = 809240558043135/140737488355328 := by
  have hs : scaleLoop 2400 103582791429521275 18014398509481984 0
      = (116623855220996955193009084825600, 18014398509481984, -50) := by decide
  have ht : Int.toNat 50 = 50 := rfl
  rw [roundDouble, if_neg (by norm_num)]
  norm_num [hs, ht]

theorem rd_1200 : roundDouble (1200 : ℚ) = 1200 := by
  have hs : scaleLoop 2400 1200 1 0 = (5277655813324800, 1, -42) := by decide
  have ht : Int.toNat 42 = 42 := rfl
  rw [roundDouble, if_neg (by norm_num)]
  norm_num [hs, ht]

theorem rd_1000 : roundDouble (1000 : ℚ) = 1000 := by
  have hs : scaleLoop 2400 1000 1 0 = (8796093022208000, 1, -43) := by decide
  have ht : Int.toNat 43 = 43 := rfl
  rw [roundDouble, if_neg (by norm_num)]
  norm_num [hs, ht]

theorem rd_200 : roundDouble (200 : ℚ) = 200 := by
  have hs : scaleLoop 2400 200 1 0 = (7036874417766400, 1, -45) := by decide
  have ht : Int.toNat 45 = 45 := rfl
  rw [roundDouble, if_neg (by norm_num)]
  norm_num [hs, ht]

theorem rd_fifth : roundDouble (1/5 : ℚ) = 3602879701896397/18014398509481984 := by
  have hs : scaleLoop 2400 1 5 0 = (36028797018963968, 5, -55) := by decide
  have ht : Int.toNat 55 = 55 := rfl
  rw [roundDouble, if_neg (by norm_num)]
  norm_num [hs, ht]

theorem rd_20 : roundDouble (90071992547409925/4503599627370496) = 20 := by
  have hs : scaleLoop 2400 90071992547409925 4503599627370496 0
      = (25353012004564589437308947660800, 4503599627370496, -48) := by decide
  have ht : Int.toNat 48 = 48 := rfl
  rw [roundDouble, if_neg (by norm_num)]
  norm_num [hs, ht]

theorem rd_sum1 : roundDouble (2976597878715187/70368744177664)
    = 2976597878715187/70368744177664 := by
  have hs : scaleLoop 2400 2976597878715187 70368744177664 0
      = (418918909294172656878365966336, 70368744177664, -47) := by decide
  have ht : Int.toNat 47 = 47 := rfl
  rw [roundDouble, if_neg (by norm_num)]
  norm_num [hs, ht]

theorem rd_sum2 : roundDouble (5791347645821747/70368744177664)
    = 5791347645821747/70368744177664 := by
  have hs : scaleLoop 2400 5791347645821747 70368744177664 0
      = (407529860932747172423042859008, 70368744177664, -46) := by decide
  have ht : Int.toNat 46 = 46 := rfl
  rw [roundDouble, if_neg (by norm_num)]
  norm_num [hs, ht]

theorem rd_mean : roundDouble (5791347645821747/140737488355328)
    = 5791347645821747/140737488355328 := by
  have hs : scaleLoop 2400 5791347645821747 140737488355328 0
      = (815059721865494344846085718016, 140737488355328, -47) := by decide
  have ht : Int.toNat 47 = 47 := rfl
  rw [roundDouble, if_neg (by norm_num)]
  norm_num [hs, ht]

/-- The days trend of the spec's example, computed in binary64: the double
evaluation of `(42.3 - 40.0) / 40.0 * 100` is `5.749999999999993`, and
`toFixed(1)` prints `"5.7"`. -/
theorem trend_days_example : trendString (some (423/10)) (some 40) = "5.7" := by
  rw [trendString]
  norm_num [toNum]
  rw [rd_42_3, rd_40, flSub]
  norm_num [rd_diff]
  rw [flDiv]
  norm_num [rd_quot]
  rw [flMul]
  norm_num [rd_prod]
  rw [toFixed1, if_neg (by norm_num), toFixed1Nonneg]
  norm_num
  decide

/-- The households trend of the spec's example: every step of
`(1200 - 1000) / 1000 * 100` rounds back to an exactly representable value,
so the double evaluation is exactly `20` and `toFixed(1)` prints `"20.0"`. -/
theorem trend_households_example : trendString (some 1200) (some 1000) = "20.0" := by
  rw [trendString]
  norm_num [toNum]
  rw [rd_1200, rd_1000, flSub]
  norm_num [rd_200]
  rw [flDiv]
  norm_num [rd_fifth]
  rw [flMul]
  norm_num [rd_20]
  rw [toFixed1, if_neg (by norm_num), toFixed1Nonneg]
  norm_num
  decide

/-- The state average of peers 42.3 and 40.0 in binary64: the double mean is
`41.149999999999998578...`, whose one-decimal rounding is `41.1`. -/
theorem state_average_example :
    stateAverageResp (some [some (423/10), some 40]) = 411/10 := by
  rw [stateAverageResp, stateAverageRaw, if_pos (by norm_num)]
  simp only [List.foldl_cons, List.foldl_nil]
  norm_num [flAdd, flDiv, toNum, rd_42_3, rd_40, rd_sum1, rd_sum2, rd_mean]
  rw [round1, if_neg (by norm_num)]
  norm_num

/-- C2 counterexample: at the claim's own example (average days 42.3 against
40.0) the program divides binary64 doubles, obtaining `5.749999999999993`,
and `toFixed(1)` renders `"5.7"` - not the `"5.8"` the claim asserts. -/
theorem c2_days_trend_counterexample :
    (computeTrends
        ⟨"D1", "Dist", "S1", "State", some 1200, some (423/10), some 100, some 10, "2025-09", "t2"⟩
        (some ⟨"D1", "Dist", "S1", "State", some 1000, some 40, some 90, some 9, "2025-08", "t1"⟩)).days
      = "5.7" ∧
    (computeTrends
        ⟨"D1", "Dist", "S1", "State", some 1200, some (423/10), some 100, some 10, "2025-09", "t2"⟩
        (some ⟨"D1", "Dist", "S1", "State", some 1000, some 40, some 90, some 9, "2025-08", "t1"⟩)).days
      ≠ "5.8" := by
  have h : (computeTrends
      ⟨"D1", "Dist", "S1", "State", some 1200, some (423/10), some 100, some 10, "2025-09", "t2"⟩
      (some ⟨"D1", "Dist", "S1", "State", some 1000, some 40, some 90, some 9, "2025-08", "t1"⟩)).days
      = "5.7" := trend_days_example
  refine ⟨h, ?_⟩
  rw [h]
  decide

/-- C2 amended: with a previous record whose metric value is non-zero, each
of the four trends equals `((current - previous) / previous) * 100` evaluated
in IEEE-754 binary64 arithmetic (the fields' doubles, every operation rounded
to nearest-even) and rendered by `toFixed(1)`.  On the spec's example the
households trend is `"20.0"` (exact in doubles) but the days trend is
`"5.7"`, not `"5.8"`: the double evaluation gives `5.749999999999993`. -/
theorem c2_trend_formula_double (c p : DistrictRecord) :
    (toNum p.total_households ≠ 0 →
      (computeTrends c (some p)).households =
        toFixed1 (flMul (flDiv (flSub (roundDouble (toNum c.total_households))
          (roundDouble (toNum p.total_households)))
          (roundDouble (toNum p.total_households))) 100)) ∧
    (toNum p.avg_days_per_household ≠ 0 →
      (computeTrends c (some p)).days =
        toFixed1 (flMul (flDiv (flSub (roundDouble (toNum c.avg_days_per_household))
          (roundDouble (toNum p.avg_days_per_household)))
          (roundDouble (toNum p.avg_days_per_household))) 100)) ∧
    (toNum p.total_expenditure ≠ 0 →
      (computeTrends c (some p)).expenditure =
        toFixed1 (flMul (flDiv (flSub (roundDouble (toNum c.total_expenditure))
          (roundDouble (toNum p.total_expenditure)))
          (roundDouble (toNum p.total_expenditure))) 100)) ∧
    (toNum p.works_completed ≠ 0 →
      (computeTrends c (some p)).works =
        toFixed1 (flMul (flDiv (flSub (roundDouble (toNum c.works_completed))
          (roundDouble (toNum p.works_completed)))
          (roundDouble (toNum p.works_completed))) 100)) ∧
    (computeTrends
        ⟨"D1", "Dist", "S1", "State", some 1200, some (423/10), some 100, some 10, "2025-09", "t2"⟩
        (some ⟨"D1", "Dist", "S1", "State", some 1000, some 40, some 90, some 9, "2025-08", "t1"⟩)).households
      = "20.0" ∧
    (computeTrends
        ⟨"D1", "Dist", "S1", "State", some 1200, some (423/10), some 100, some 10, "2025-09", "t2"⟩
        (some ⟨"D1", "Dist", "S1", "State", some 1000, some 40, some 90, some 9, "2025-08", "t1"⟩)).days
      = "5.7" := by
  refine ⟨fun h => ?_, fun h => ?_, fun h => ?_, fun h => ?_,
    trend_households_example, trend_days_example⟩
  · show trendString _ _ = _
    rw [trendString]
    simp only [if_neg h]
  · show trendString _ _ = _
    rw [trendString]
    simp only [if_neg h]
  · show trendString _ _ = _
    rw [trendString]
    simp only [if_neg h]
  · show trendString _ _ = _
    rw [trendString]
    simp only [if_neg h]

/-- Witness for C2 amended at the spec's example values. -/
theorem c2_trend_formula_double_witness :
    toNum (some (1000 : ℚ)) ≠ 0 ∧
    (computeTrends
        ⟨"D1", "Dist", "S1", "State", some 1200, some (423/10), some 100, some 10, "2025-09", "t2"⟩
        (some ⟨"D1", "Dist", "S1", "State", some 1000, some 40, some 90, some 9, "2025-08", "t1"⟩)).households
      = toFixed1 (flMul (flDiv (flSub (roundDouble (toNum (some (1200 : ℚ))))
          (roundDouble (toNum (some 1000)))) (roundDouble (toNum (some 1000)))) 100) :=
  ⟨by norm_num [toNum],
   (c2_trend_formula_double
      ⟨"D1", "Dist", "S1", "State", some 1200, some (423/10), some 100, some 10, "2025-09", "t2"⟩
      ⟨"D1", "Dist", "S1", "State", some 1000, some 40, some 90, some 9, "2025-08", "t1"⟩).1
     (by norm_num [toNum])⟩

/-- C3 counterexample: for peers 42.3 and 40.0 the program folds doubles and
divides a double, returning `41.1`; the exact arithmetic mean is `41.15`,
whose one-decimal rounding is `41.2`.  The claimed equation fails at this
input. -/
theorem c3_exact_mean_counterexample :
    stateAverageResp (some [some (423/10), some 40]) = 411/10 ∧
    round1 ((([some (423/10), some 40] : List (Option ℚ)).map toNum).sum
      / (([some (423/10), some 40] : List (Option ℚ)).length : ℚ)) = 206/5 ∧
    stateAverageResp (some [some (423/10), some 40])
      ≠ round1 ((([some (423/10), some 40] : List (Option ℚ)).map toNum).sum
        / (([some (423/10), some 40] : List (Option ℚ)).length : ℚ)) := by
  have h2 : round1 ((([some (423/10), some 40] : List (Option ℚ)).map toNum).sum
      / (([some (423/10), some 40] : List (Option ℚ)).length : ℚ)) = 206/5 := by
    have hm : (([some (423/10), some 40] : List (Option ℚ)).map toNum).sum
        / (([some (423/10), some 40] : List (Option ℚ)).length : ℚ) = 823/20 := by
      norm_num [toNum]
    rw [hm, round1, if_neg (by norm_num)]
    norm_num
  refine ⟨state_average_example, h2, ?_⟩
  rw [state_average_example, h2]
  norm_num

/-- C3 amended: the `stateAverage` returned by `/api/performance` is the
one-decimal rounding of the mean computed in binary64 (a left fold of double
additions of the peers' `avg_days_per_household`, divided by the count); for
an empty or failed peer query it is `0`.  This can sit one last-decimal step
from the exact mean's rounding: for peers 42.3 and 40.0 it is `41.1` while
the exact mean `41.15` rounds to `41.2`. -/
theorem c3_state_average_double (d : Option ℚ) (rest : List (Option ℚ)) :
    stateAverageResp (some []) = 0 ∧
    stateAverageResp none = 0 ∧
    stateAverageResp (some (d :: rest)) =
      round1 (flDiv ((d :: rest).foldl (fun sum x => flAdd sum (roundDouble (toNum x))) 0)
        (((d :: rest).length : ℚ))) ∧
    (∀ (cur : DistrictRecord) (r : List DistrictRecord) (prs : Option (List (Option ℚ))),
      performanceHandler (.ok (cur :: r)) prs
        = .success cur (computeTrends cur r.head?) (stateAverageResp prs) cur.updated_at) ∧
    stateAverageResp (some [some (423/10), some 40]) = 411/10 := by
  refine ⟨?_, ?_, ?_, fun cur r prs => rfl, state_average_example⟩
  · norm_num [stateAverageResp, stateAverageRaw, round1]
  · norm_num [stateAverageResp, stateAverageRaw, round1]
  · rw [stateAverageResp, stateAverageRaw, if_pos (by norm_num)]

/-! ### Lemmas about the JavaScript `Map` embedding -/

section MapLemmas

variable {α : Type}

/-- `upsert` never removes keys: the key list gains `k` at the end when it is
new and is unchanged otherwise. -/
theorem upsert_keys (m : List (String × α)) (k : String) (v : α) :
    (upsert m k v).map Prod.fst =
      if k ∈ m.map Prod.fst then m.map Prod.fst else m.map Prod.fst ++ [k] := by
  induction m with
  | nil => simp [upsert]
  | cons kv rest ih =>
    obtain ⟨k', v'⟩ := kv
    rw [upsert]
    by_cases hk : k' = k
    · subst hk
      simp
    · rw [if_neg hk]
      simp only [List.map_cons, ih, List.mem_cons]
      by_cases hmem : k ∈ rest.map Prod.fst
      · rw [if_pos hmem, if_pos (Or.inr hmem)]
      · rw [if_neg hmem, if_neg (fun h => h.elim (fun h1 => hk h1.symm) hmem)]
        simp

/-- `upsert` preserves distinctness of keys. -/
theorem upsert_nodup (m : List (String × α)) (k : String) (v : α)
    (h : (m.map Prod.fst).Nodup) : ((upsert m k v).map Prod.fst).Nodup := by
  rw [upsert_keys]
  by_cases hmem : k ∈ m.map Prod.fst
  · rwa [if_pos hmem]
  · rw [if_neg hmem]
    simp only [List.nodup_append, List.nodup_cons, List.nodup_nil]
    exact ⟨h, by simp, by simpa using hmem⟩

/-- Building a `Map` by repeated `set` keeps the key list distinct. -/
theorem foldl_upsert_nodup (pairs : List (String × α)) (m : List (String × α))
    (h : (m.map Prod.fst).Nodup) :
    ((pairs.foldl (fun m kv => upsert m kv.1 kv.2) m).map Prod.fst).Nodup := by
  induction pairs generalizing m with
  | nil => exact h
  | cons kv rest ih => exact ih _ (upsert_nodup _ _ _ h)

/-- `upsert` preserves an entry-wise predicate that the new entry satisfies. -/
theorem upsert_pred (P : String × α → Prop) (m : List (String × α)) (k : String) (v : α)
    (hm : ∀ kv ∈ m, P kv) (hkv : P (k, v)) : ∀ kv ∈ upsert m k v, P kv := by
  induction m with
  | nil =>
    intro kv hmem
    rw [upsert] at hmem
    simp only [List.mem_singleton] at hmem
    exact hmem ▸ hkv
  | cons kv0 rest ih =>
    obtain ⟨k', v'⟩ := kv0
    intro kv hmem
    rw [upsert] at hmem
    by_cases hk : k' = k
    · rw [if_pos hk] at hmem
      rcases List.mem_cons.1 hmem with h | h
      · subst h
        exact hk ▸ hkv
      · exact hm _ (List.mem_cons_of_mem _ h)
    · rw [if_neg hk] at hmem
      rcases List.mem_cons.1 hmem with h | h
      · exact h ▸ hm _ (List.mem_cons_self _ _)
      · exact ih (fun kv h' => hm kv (List.mem_cons_of_mem _ h')) _ h

/-- The fold of `upsert` preserves an entry-wise predicate satisfied by the
initial entries and by every inserted pair. -/
theorem foldl_upsert_pred (P : String × α → Prop) (pairs m : List (String × α))
    (hm : ∀ kv ∈ m, P kv) (hp : ∀ kv ∈ pairs, P kv) :
    ∀ kv ∈ pairs.foldl (fun m kv => upsert m kv.1 kv.2) m, P kv := by
  induction pairs generalizing m with
  | nil => exact hm
  | cons kv0 rest ih =>
    obtain ⟨k0, v0⟩ := kv0
    exact ih _ (upsert_pred P m k0 v0 hm (hp _ (List.mem_cons_self _ _)))
      (fun kv h' => hp kv (List.mem_cons_of_mem _ h'))

/-- When the entry being set is already stored (same key, same value, and no
other value is stored under that key), `Map.set` changes nothing. -/
theorem upsert_eq_self (m : List (String × α)) (k : String) (v : α)
    (hmem : (k, v) ∈ m) (hval : ∀ kv ∈ m, kv.1 = k → kv.2 = v) :
    upsert m k v = m := by
  induction m with
  | nil => cases hmem
  | cons kv0 rest ih =>
    obtain ⟨k0, v0⟩ := kv0
    rw [upsert]
    by_cases hk : k0 = k
    · rw [if_pos hk]
      have : v0 = v := hval (k0, v0) (List.mem_cons_self _ _) hk
      rw [this]
    · rw [if_neg hk]
      have hmem' : (k, v) ∈ rest := by
        rcases List.mem_cons.1 hmem with h | h
        · cases h
          exact absurd rfl hk
        · exact h
      rw [ih hmem' (fun kv h' hk' => hval kv (List.mem_cons_of_mem _ h') hk')]

/-- Setting a fresh key appends the entry. -/
theorem upsert_append (m : List (String × α)) (k : String) (v : α)
    (hmem : k ∉ m.map Prod.fst) : upsert m k v = m ++ [(k, v)] := by
  induction m with
  | nil => rfl
  | cons kv0 rest ih =>
    obtain ⟨k0, v0⟩ := kv0
    rw [upsert, if_neg, List.cons_append, ih]
    · intro h
      exact hmem (by simp [h])
    · intro h
      exact hmem (by simp [h])

/-- Keep-first deduplication by key, skipping keys already `seen`. -/
def dedupNew (seen : List String) : List (String × α) → List (String × α)
  | [] => []
  | (k, v) :: rest =>
    if k ∈ seen then dedupNew seen rest else (k, v) :: dedupNew (k :: seen) rest

/-- `dedupNew` depends on `seen` only through membership. -/
theorem dedupNew_congr (pairs : List (String × α)) (s1 s2 : List String)
    (h : ∀ x, x ∈ s1 ↔ x ∈ s2) : dedupNew s1 pairs = dedupNew s2 pairs := by
  induction pairs generalizing s1 s2 with
  | nil => rfl
  | cons kv rest ih =>
    obtain ⟨k, v⟩ := kv
    rw [dedupNew, dedupNew]
    by_cases hk : k ∈ s1
    · rw [if_pos hk, if_pos ((h k).1 hk), ih s1 s2 h]
    · rw [if_neg hk, if_neg (fun h' => hk ((h k).2 h'))]
      rw [ih (k :: s1) (k :: s2) (by intro x; simp [h x])]

/-- `dedupNew` yields a sublist. -/
theorem dedupNew_sublist (pairs : List (String × α)) (seen : List String) :
    List.Sublist (dedupNew seen pairs) pairs := by
  induction pairs generalizing seen with
  | nil => exact List.Sublist.refl _
  | cons kv rest ih =>
    obtain ⟨k, v⟩ := kv
    rw [dedupNew]
    by_cases hk : k ∈ seen
    · rw [if_pos hk]
      exact List.Sublist.cons _ (ih seen)
    · rw [if_neg hk]
      exact List.Sublist.cons₂ _ (ih (k :: seen))

/-- When each key determines its value across the accumulator and the entry
list, building the `Map` appends exactly the entries with unseen keys, in
first-occurrence order. -/
theorem foldl_upsert_eq_append (pairs : List (String × α)) (acc : List (String × α))
    (hacc : ∀ kv ∈ acc, ∀ kv' ∈ pairs, kv.1 = kv'.1 → kv.2 = kv'.2)
    (hp : ∀ kv ∈ pairs, ∀ kv' ∈ pairs, kv.1 = kv'.1 → kv.2 = kv'.2) :
    pairs.foldl (fun m kv => upsert m kv.1 kv.2) acc
      = acc ++ dedupNew (acc.map Prod.fst) pairs := by
  induction pairs generalizing acc with
  | nil => simp [dedupNew]
  | cons kv0 rest ih =>
    obtain ⟨k, v⟩ := kv0
    rw [List.foldl_cons, dedupNew]
    by_cases hk : k ∈ acc.map Prod.fst
    · rw [if_pos hk]
      obtain ⟨kv1, hkv1, hfst⟩ := List.mem_map.1 hk
      have hv1 : kv1.2 = v :=
        hacc kv1 hkv1 (k, v) (List.mem_cons_self _ _) hfst
      have hkvmem : (k, v) ∈ acc := by
        have : kv1 = (k, v) := Prod.ext hfst hv1
        exact this ▸ hkv1
      rw [upsert_eq_self acc k v hkvmem
        (fun kv h' hk' => hacc kv h' (k, v) (List.mem_cons_self _ _) hk')]
      exact ih acc
        (fun kv h' kv' h'' => hacc kv h' kv' (List.mem_cons_of_mem _ h''))
        (fun kv h' kv' h'' => hp kv (List.mem_cons_of_mem _ h') kv' (List.mem_cons_of_mem _ h''))
    · rw [if_neg hk, upsert_append acc k v hk]
      rw [ih (acc ++ [(k, v)]) ?hacc ?hp]
      · rw [List.map_append, List.append_assoc]
        congr 1
        rw [List.cons_append, List.nil_append]
        congr 1
        exact dedupNew_congr rest _ _ (by intro x; simp [or_comm])
      case hacc =>
        intro kv h' kv' h''
        rcases List.mem_append.1 h' with h1 | h1
        · exact hacc kv h1 kv' (List.mem_cons_of_mem _ h'')
        · have : kv = (k, v) := List.mem_singleton.1 h1
          subst this
          exact hp (k, v) (List.mem_cons_self _ _) kv' (List.mem_cons_of_mem _ h'')
      case hp =>
        intro kv h' kv' h''
        exact hp kv (List.mem_cons_of_mem _ h') kv' (List.mem_cons_of_mem _ h'')

/-- Under key-determines-value, the `Map` dedup of
`rows.map (r => [key r, r])` is a sublist of `rows`. -/
theorem jsMapValues_sublist (key : α → String) (rows : List α)
    (h : ∀ r ∈ rows, ∀ s ∈ rows, key r = key s → r = s) :
    List.Sublist (jsMapValues (rows.map fun r => (key r, r))) rows := by
  have hpairs : ∀ kv ∈ rows.map (fun r => (key r, r)),
      ∀ kv' ∈ rows.map (fun r => (key r, r)), kv.1 = kv'.1 → kv.2 = kv'.2 := by
    intro kv hkv kv' hkv' hfst
    obtain ⟨r, hr, rfl⟩ := List.mem_map.1 hkv
    obtain ⟨s, hs, rfl⟩ := List.mem_map.1 hkv'
    exact h r hr s hs hfst
  rw [jsMapValues, foldl_upsert_eq_append _ [] (by simp) hpairs, List.nil_append,
    List.map_nil]
  have hsub := dedupNew_sublist (rows.map fun r => (key r, r)) []
  have hmap := hsub.map Prod.snd
  have h2 : rows.map (Prod.snd ∘ fun r => (key r, r)) = rows := List.map_id' rows
  rw [List.map_map, h2] at hmap
  exact hmap

/-- The values of the `Map` dedup have pairwise-distinct keys. -/
theorem jsMapValues_nodup (key : α → String) (rows : List α) :
    ((jsMapValues (rows.map fun r => (key r, r))).map key).Nodup := by
  rw [jsMapValues]
  have hinv : ∀ kv ∈ (rows.map fun r => (key r, r)).foldl
      (fun m kv => upsert m kv.1 kv.2) [], key kv.2 = kv.1 := by
    have := foldl_upsert_pred (fun kv => key kv.2 = kv.1)
      (rows.map fun r => (key r, r)) [] (by simp) ?_
    · exact fun kv h' => this kv h'
    · intro kv hkv
      obtain ⟨r, hr, rfl⟩ := List.mem_map.1 hkv
      rfl
  rw [List.map_map]
  have heq : ((rows.map fun r => (key r, r)).foldl (fun m kv => upsert m kv.1 kv.2) []).map
      (key ∘ Prod.snd)
      = ((rows.map fun r => (key r, r)).foldl (fun m kv => upsert m kv.1 kv.2) []).map
        Prod.fst :=
    List.map_congr_left (fun kv hkv => hinv kv hkv)
  rw [heq]
  exact foldl_upsert_nodup _ [] (by simp)

/-- Querying the key just set finds the new value. -/
theorem find_upsert_self (m : List (String × α)) (k : String) (v : α) :
    (upsert m k v).find? (fun kv => kv.1 == k) = some (k, v) := by
  induction m with
  | nil => simp [upsert]
  | cons kv0 rest ih =>
    obtain ⟨k0, v0⟩ := kv0
    rw [upsert]
    by_cases hk : k0 = k
    · subst hk
      simp
    · rw [if_neg hk, List.find?_cons]
      have hb : (k0 == k) = false := beq_false_of_ne hk
      simp [hb, ih]

/-- Querying a different key is unaffected by a `set`. -/
theorem find_upsert_other (m : List (String × α)) (k k2 : String) (v : α) (h : k2 ≠ k) :
    (upsert m k v).find? (fun kv => kv.1 == k2) = m.find? (fun kv => kv.1 == k2) := by
  induction m with
  | nil =>
    have hb : (k == k2) = false := beq_false_of_ne (fun he => h he.symm)
    simp [upsert, hb]
  | cons kv0 rest ih =>
    obtain ⟨k0, v0⟩ := kv0
    rw [upsert]
    by_cases hk : k0 = k
    · have hb : (k0 == k2) = false := beq_false_of_ne (fun he => h (he.symm.trans hk))
      rw [if_pos hk]
      simp [List.find?_cons, hb]
    · rw [if_neg hk]
      simp only [List.find?_cons]
      cases hb : (k0 == k2)
      · simp [ih]
      · simp

/-- Lookup in the built `Map`: the value stored under `k` is the one from the
last entry with that key, and absent keys fall back to the initial map. -/
theorem find_foldl_upsert (pairs : List (String × α)) (m0 : List (String × α)) (k : String) :
    (pairs.foldl (fun m kv => upsert m kv.1 kv.2) m0).find? (fun kv => kv.1 == k)
      = match lastWith (fun kv => kv.1 == k) pairs with
        | some kv => some (k, kv.2)
        | none => m0.find? (fun kv => kv.1 == k) := by
  induction pairs generalizing m0 with
  | nil => rfl
  | cons kv0 rest ih =>
    obtain ⟨k0, v0⟩ := kv0
    rw [List.foldl_cons, ih, lastWith]
    cases hl : lastWith (fun kv => kv.1 == k) rest
    · by_cases hk : k0 = k
      · subst hk
        simp only [beq_self_eq_true, if_pos]
        exact find_upsert_self m0 k0 v0
      · have hb : (k0 == k) = false := beq_false_of_ne hk
        rw [hb]
        simp only [Bool.false_eq_true, if_false]
        exact find_upsert_other m0 k0 k v0 (fun he => hk he.symm)
    · rfl

/-- `find?` over the `.values()` projection agrees with key lookup when every
entry's key is its value's key. -/
theorem find_map_snd (m : List (String × α)) (key : α → String) (c : String)
    (hinv : ∀ kv ∈ m, kv.1 = key kv.2) :
    (m.map Prod.snd).find? (fun r => key r == c)
      = (m.find? (fun kv => kv.1 == c)).map Prod.snd := by
  induction m with
  | nil => rfl
  | cons kv0 rest ih =>
    obtain ⟨k1, v1⟩ := kv0
    have h1 : k1 = key v1 := hinv (k1, v1) (List.mem_cons_self _ _)
    rw [List.map_cons, List.find?_cons, List.find?_cons]
    subst h1
    cases hb : (key v1 == c)
    · simp [hb, ih (fun kv h' => hinv kv (List.mem_cons_of_mem _ h'))]
    · simp [hb]

/-- `lastWith` commutes with `map`. -/
theorem lastWith_map {β : Type} (f : α → β) (q : β → Bool) (l : List α) :
    lastWith q (l.map f) = (lastWith (fun r => q (f r)) l).map f := by
  induction l with
  | nil => rfl
  | cons a rest ih =>
    rw [List.map_cons, lastWith, lastWith, ih]
    cases hl : lastWith (fun r => q (f r)) rest
    · cases hq : q (f a) <;> simp [hq]
    · simp

/-- In the deduplicated `.values()` list, the row found for a key is the
*last* row of the input carrying that key. -/
theorem jsMapValues_find_last (key : α → String) (rows : List α) (c : String) :
    (jsMapValues (rows.map fun r => (key r, r))).find? (fun r => key r == c)
      = lastWith (fun r => key r == c) rows := by
  have hinv : ∀ kv ∈ (rows.map fun r => (key r, r)).foldl
      (fun m kv => upsert m kv.1 kv.2) [], kv.1 = key kv.2 := by
    refine foldl_upsert_pred (fun kv => kv.1 = key kv.2) _ [] (by simp) ?_
    intro kv hkv
    obtain ⟨r, hr, rfl⟩ := List.mem_map.1 hkv
    rfl
  rw [jsMapValues, find_map_snd _ key c hinv, find_foldl_upsert,
    lastWith_map (fun r => (key r, r)) (fun kv => kv.1 == c) rows]
  cases hl : lastWith (fun r => key r == c) rows
  · rfl
  · rfl

end MapLemmas

/-- Lexicographic comparison of character lists, the dictionary order core
Lean uses for `String` — written as a structural `Bool` function so concrete
comparisons evaluate in the kernel. -/
def charListLtb : List Char → List Char → Bool
  | [], [] => false
  | [], _ :: _ => true
  | _ :: _, [] => false
  | a :: as, b :: bs => if a < b then true else if b < a then false else charListLtb as bs

/-- Dictionary order on strings (the order `order('state_name')` /
`order('district_name')` yields for ASCII names): `s ≤ t` iff `t` is not
strictly below `s`. -/
def nameLe (s t : String) : Prop := charListLtb t.data s.data = false

instance nameLe.instDecidable : DecidableRel nameLe := fun s t =>
  inferInstanceAs (Decidable (charListLtb t.data s.data = false))

/-- C6 counterexample: a store result ordered by `state_name` that contains
two rows with the same state code but different names.  The `Map` dedup keeps
the first occurrence's position with the last occurrence's value, so the
output is no longer ordered by name (the claim's ordering part fails); the
codes are still distinct. -/
theorem c6_order_counterexample :
    List.Sorted (fun x y : StateRow => nameLe x.state_name y.state_name)
      [⟨"A", "a"⟩, ⟨"B", "b"⟩, ⟨"A", "z"⟩] ∧
    uniqueStates [⟨"A", "a"⟩, ⟨"B", "b"⟩, ⟨"A", "z"⟩] = [⟨"A", "z"⟩, ⟨"B", "b"⟩] ∧
    ¬ List.Sorted (fun x y : StateRow => nameLe x.state_name y.state_name)
      (uniqueStates [⟨"A", "a"⟩, ⟨"B", "b"⟩, ⟨"A", "z"⟩]) := by
  refine ⟨?_, ?_, ?_⟩
  · decide
  · decide
  · decide

/-- C6 amended: the states and districts endpoints always return
pairwise-distinct codes; the output is ordered by name — for any order the
store may use — provided rows sharing a code are identical (in particular for
exact duplicate rows).  With conflicting names for one code, ordering can be
lost (see the counterexample). -/
theorem c6_distinct_and_sorted :
    (∀ rows : List StateRow, ((uniqueStates rows).map (fun r => r.state_code)).Nodup) ∧
    (∀ (le : String → String → Prop) (rows : List StateRow),
      (∀ r ∈ rows, ∀ s ∈ rows, r.state_code = s.state_code → r = s) →
      List.Sorted (fun x y : StateRow => le x.state_name y.state_name) rows →
      List.Sorted (fun x y : StateRow => le x.state_name y.state_name) (uniqueStates rows)) ∧
    (∀ rows : List DistrictRow, ((uniqueDistricts rows).map (fun r => r.district_code)).Nodup) ∧
    (∀ (le : String → String → Prop) (rows : List DistrictRow),
      (∀ r ∈ rows, ∀ s ∈ rows, r.district_code = s.district_code → r = s) →
      List.Sorted (fun x y : DistrictRow => le x.district_name y.district_name) rows →
      List.Sorted (fun x y : DistrictRow => le x.district_name y.district_name)
        (uniqueDistricts rows)) := by
  refine ⟨fun rows => ?_, fun le rows h hs => ?_, fun rows => ?_, fun le rows h hs => ?_⟩
  · exact jsMapValues_nodup (fun r => r.state_code) rows
  · have hsub := jsMapValues_sublist (fun r : StateRow => r.state_code) rows h
    exact List.Pairwise.sublist hsub hs
  · exact jsMapValues_nodup (fun r => r.district_code) rows
  · have hsub := jsMapValues_sublist (fun r : DistrictRow => r.district_code) rows h
    exact List.Pairwise.sublist hsub hs

/-- Witness for C6 amended: a store result with an exactly duplicated row. -/
theorem c6_distinct_and_sorted_witness :
    ((uniqueStates [⟨"A", "a"⟩, ⟨"A", "a"⟩, ⟨"B", "b"⟩]).map (fun r => r.state_code)).Nodup ∧
    List.Sorted (fun x y : StateRow => nameLe x.state_name y.state_name)
      (uniqueStates [⟨"A", "a"⟩, ⟨"A", "a"⟩, ⟨"B", "b"⟩]) :=
  ⟨c6_distinct_and_sorted.1 _,
   c6_distinct_and_sorted.2.1 nameLe [⟨"A", "a"⟩, ⟨"A", "a"⟩, ⟨"B", "b"⟩]
     (by decide) (by decide)⟩

/-- C10: when the store returns several rows with the same code, the
deduplication in `/api/states` and `/api/districts/:stateCode` keeps, for each
code, the row of its last occurrence: looking the code up in the output finds
exactly the last input row with that code. -/
theorem c10_last_occurrence_wins :
    (∀ (rows : List StateRow) (c : String),
      (uniqueStates rows).find? (fun r => r.state_code == c)
        = lastWith (fun r => r.state_code == c) rows) ∧
    (∀ (rows : List DistrictRow) (c : String),
      (uniqueDistricts rows).find? (fun r => r.district_code == c)
        = lastWith (fun r => r.district_code == c) rows) :=
  ⟨fun rows c => jsMapValues_find_last (fun r => r.state_code) rows c,
   fun rows c => jsMapValues_find_last (fun r => r.district_code) rows c⟩

end Mgnrega
